import Mathlib

/-!
Shallow embedding of the time canonicalization and conversion logic of
`prost-types` (file `src/prost-types/src/lib.rs`): the `Duration` and
`Timestamp` well-known types, their `normalize` methods, and the
conversions to and from the host `std::time` types.

Machine integers are modelled as `Int` with explicit two's-complement
wrapping (`wrap64`, `wrap32`) at every operation where Rust release-mode
arithmetic may overflow, and unsigned casts (`as u64`, `as u32`) as
reduction modulo `2 ^ 64` / `2 ^ 32` (`toU64`, `toU32`).
-/

namespace Prost

/-- Two's-complement wrap of an integer into the `i64` range. -/
def wrap64 (x : Int) : Int :=
  (x + 9223372036854775808) % 18446744073709551616 - 9223372036854775808

/-- Two's-complement wrap of an integer into the `i32` range. -/
def wrap32 (x : Int) : Int :=
  (x + 2147483648) % 4294967296 - 2147483648

/-- The `as u64` cast on an `i64` value: reduction modulo `2 ^ 64`. -/
def toU64 (x : Int) : Nat := (x % 18446744073709551616).toNat

/-- The `as u32` cast on an `i32` value: reduction modulo `2 ^ 32`. -/
def toU32 (x : Int) : Nat := (x % 4294967296).toNat

/-- The constant `NANOS_PER_SECOND: i32 = 1_000_000_000` of the source. -/
def NANOS_PER_SECOND : Int := 1000000000

/-- The protobuf well-known type `Duration`: a signed `(seconds, nanos)`
pair, `seconds: i64` and `nanos: i32` modelled as integers. -/
structure Duration where
  seconds : Int
  nanos : Int
deriving DecidableEq

/-- The protobuf well-known type `Timestamp`: a signed `(seconds, nanos)`
pair, `seconds: i64` and `nanos: i32` modelled as integers. -/
structure Timestamp where
  seconds : Int
  nanos : Int
deriving DecidableEq

deriving instance DecidableEq for Except

/-- First block of `Duration::normalize`: if `nanos` is out of range,
carry whole seconds using truncating division and remainder
(`self.seconds += (self.nanos / NANOS_PER_SECOND) as i64;
self.nanos %= NANOS_PER_SECOND`). Rust `/` and `%` on `i32` are
truncating, hence `Int.tdiv` and `Int.tmod`. -/
def Duration.rangeFold (d : Duration) : Duration :=
  if d.nanos ≤ -NANOS_PER_SECOND ∨ NANOS_PER_SECOND ≤ d.nanos then
    ⟨wrap64 (d.seconds + d.nanos.tdiv NANOS_PER_SECOND),
     d.nanos.tmod NANOS_PER_SECOND⟩
  else d

/-- Second block of `Duration::normalize`: make `nanos` carry the same
sign as `seconds` by moving one whole second. -/
def Duration.signFix (d : Duration) : Duration :=
  if d.seconds < 0 ∧ 0 < d.nanos then
    ⟨wrap64 (d.seconds + 1), wrap32 (d.nanos - NANOS_PER_SECOND)⟩
  else if 0 < d.seconds ∧ d.nanos < 0 then
    ⟨wrap64 (d.seconds - 1), wrap32 (d.nanos + NANOS_PER_SECOND)⟩
  else d

/-- `Duration::normalize` of the source: range fold, then sign
reconciliation (symmetric sign policy). -/
def Duration.normalize (d : Duration) : Duration :=
  d.rangeFold.signFix

/-- First block of `Timestamp::normalize`: identical range fold. -/
def Timestamp.rangeFold (t : Timestamp) : Timestamp :=
  if t.nanos ≤ -NANOS_PER_SECOND ∨ NANOS_PER_SECOND ≤ t.nanos then
    ⟨wrap64 (t.seconds + t.nanos.tdiv NANOS_PER_SECOND),
     t.nanos.tmod NANOS_PER_SECOND⟩
  else t

/-- Second block of `Timestamp::normalize`: force `nanos` non-negative
by borrowing one whole second (timestamp sign policy). -/
def Timestamp.signFix (t : Timestamp) : Timestamp :=
  if t.nanos < 0 then
    ⟨wrap64 (t.seconds - 1), wrap32 (t.nanos + NANOS_PER_SECOND)⟩
  else t

/-- `Timestamp::normalize` of the source. -/
def Timestamp.normalize (t : Timestamp) : Timestamp :=
  t.rangeFold.signFix

/-- Facts about truncating division and remainder by `1_000_000_000`
that the arithmetic proofs below feed to `omega`. -/
theorem tmod_tdiv_ten9 (n : Int) :
    1000000000 * n.tdiv 1000000000 + n.tmod 1000000000 = n ∧
    -999999999 ≤ n.tmod 1000000000 ∧ n.tmod 1000000000 ≤ 999999999 ∧
    (0 ≤ n → 0 ≤ n.tmod 1000000000) ∧ (n ≤ 0 → n.tmod 1000000000 ≤ 0) := by
  have hdef := Int.tdiv_add_tmod n 1000000000
  rcases le_or_lt 0 n with hn | hn
  · have h1 : 0 ≤ n.tmod 1000000000 := Int.tmod_nonneg _ hn
    have h2 : n.tmod 1000000000 < 1000000000 :=
      Int.tmod_lt_of_pos n (by norm_num)
    refine ⟨hdef, by omega, by omega, fun _ => h1, fun hle => ?_⟩
    omega
  · have hneg : (0 : Int) ≤ -n := by omega
    have h1 : 0 ≤ (-n).tmod 1000000000 := Int.tmod_nonneg _ hneg
    have h2 : (-n).tmod 1000000000 < 1000000000 :=
      Int.tmod_lt_of_pos (-n) (by norm_num)
    have hneg_eq : n.tmod 1000000000 = -((-n).tmod 1000000000) := by
      rw [Int.tmod_def, Int.tmod_def, Int.neg_tdiv]
      ring
    refine ⟨hdef, by omega, by omega, fun h0 => by omega, fun _ => by omega⟩

/-- Sign compatibility in the sense of the spec: once no mixed-sign pair
remains, the sign of `b` is zero, equal to the sign of `a`, or `a` is
zero (the case of a zero whole-second count with nonzero fraction). -/
theorem sign_compat {a b : Int} (h1 : ¬(a < 0 ∧ 0 < b)) (h2 : ¬(0 < a ∧ b < 0)) :
    b.sign = 0 ∨ b.sign = a.sign ∨ a = 0 := by
  rcases lt_trichotomy a 0 with ha | ha | ha
  · rcases lt_trichotomy b 0 with hb | hb | hb
    · exact Or.inr (Or.inl (by
        rw [Int.sign_eq_neg_one_iff_neg.mpr hb, Int.sign_eq_neg_one_iff_neg.mpr ha]))
    · exact Or.inl (by rw [hb]; rfl)
    · exact absurd ⟨ha, hb⟩ h1
  · exact Or.inr (Or.inr ha)
  · rcases lt_trichotomy b 0 with hb | hb | hb
    · exact absurd ⟨ha, hb⟩ h2
    · exact Or.inl (by rw [hb]; rfl)
    · exact Or.inr (Or.inl (by
        rw [Int.sign_eq_one_iff_pos.mpr hb, Int.sign_eq_one_iff_pos.mpr ha]))

/-- Full characterization of the output of `Duration::normalize` on
`i64`/`i32`-ranged inputs: the seconds stay in `i64` range, the nanos
land in the canonical range, and no mixed-sign pair remains. -/
theorem duration_normalize_spec (d : Duration)
    (hs1 : -9223372036854775808 ≤ d.seconds) (hs2 : d.seconds < 9223372036854775808)
    (hn1 : -2147483648 ≤ d.nanos) (hn2 : d.nanos < 2147483648) :
    -9223372036854775808 ≤ d.normalize.seconds ∧
    d.normalize.seconds < 9223372036854775808 ∧
    -999999999 ≤ d.normalize.nanos ∧ d.normalize.nanos ≤ 999999999 ∧
    ¬(d.normalize.seconds < 0 ∧ 0 < d.normalize.nanos) ∧
    ¬(0 < d.normalize.seconds ∧ d.normalize.nanos < 0) := by
  obtain ⟨s, n⟩ := d
  have h := tmod_tdiv_ten9 n
  simp only at hs1 hs2 hn1 hn2
  unfold Duration.normalize Duration.signFix Duration.rangeFold
  unfold NANOS_PER_SECOND wrap64 wrap32
  split_ifs <;> simp_all <;> omega

/-- Full characterization of the output of `Timestamp::normalize` on
`i64`/`i32`-ranged inputs: the seconds stay in `i64` range and the nanos
land in `[0, 999_999_999]`. -/
theorem timestamp_normalize_spec (t : Timestamp)
    (hs1 : -9223372036854775808 ≤ t.seconds) (hs2 : t.seconds < 9223372036854775808)
    (hn1 : -2147483648 ≤ t.nanos) (hn2 : t.nanos < 2147483648) :
    -9223372036854775808 ≤ t.normalize.seconds ∧
    t.normalize.seconds < 9223372036854775808 ∧
    0 ≤ t.normalize.nanos ∧ t.normalize.nanos ≤ 999999999 := by
  obtain ⟨s, n⟩ := t
  have h := tmod_tdiv_ten9 n
  simp only at hs1 hs2 hn1 hn2
  unfold Timestamp.normalize Timestamp.signFix Timestamp.rangeFold
  unfold NANOS_PER_SECOND wrap64 wrap32
  split_ifs <;> simp_all <;> omega

/-- `Duration::normalize` is the identity on pairs already in canonical
form. -/
theorem duration_normalize_fixpoint (d : Duration)
    (hb1 : -999999999 ≤ d.nanos) (hb2 : d.nanos ≤ 999999999)
    (h1 : ¬(d.seconds < 0 ∧ 0 < d.nanos)) (h2 : ¬(0 < d.seconds ∧ d.nanos < 0)) :
    d.normalize = d := by
  obtain ⟨s, n⟩ := d
  simp only at hb1 hb2 h1 h2
  unfold Duration.normalize Duration.signFix Duration.rangeFold NANOS_PER_SECOND
  split_ifs <;> simp_all <;> omega

/-- `Timestamp::normalize` is the identity on pairs already in canonical
form. -/
theorem timestamp_normalize_fixpoint (t : Timestamp)
    (hb1 : 0 ≤ t.nanos) (hb2 : t.nanos ≤ 999999999) :
    t.normalize = t := by
  obtain ⟨s, n⟩ := t
  simp only at hb1 hb2
  unfold Timestamp.normalize Timestamp.signFix Timestamp.rangeFold NANOS_PER_SECOND
  split_ifs <;> simp_all <;> omega

/-- C1: For every input pair `(seconds : i64, nanos : i32)`, after
`Duration::normalize` (symmetric sign policy) the result satisfies
`-999_999_999 ≤ nanos ≤ 999_999_999`, and the sign of `nanos` is `0` or
equal to the sign of `seconds`, the only further case being a normalized
`seconds` of `0` with nonzero `nanos`. -/
theorem duration_normalize_range_invariant (s n : Int)
    (hs1 : -9223372036854775808 ≤ s) (hs2 : s < 9223372036854775808)
    (hn1 : -2147483648 ≤ n) (hn2 : n < 2147483648) :
    -999999999 ≤ (Duration.mk s n).normalize.nanos ∧
    (Duration.mk s n).normalize.nanos ≤ 999999999 ∧
    ((Duration.mk s n).normalize.nanos.sign = 0 ∨
     (Duration.mk s n).normalize.nanos.sign = (Duration.mk s n).normalize.seconds.sign ∨
     (Duration.mk s n).normalize.seconds = 0) := by
  obtain ⟨-, -, h3, h4, h5, h6⟩ := duration_normalize_spec ⟨s, n⟩ hs1 hs2 hn1 hn2
  exact ⟨h3, h4, sign_compat h5 h6⟩

/-- Witness for C1 at the input `(-1, 5)`, which normalizes to
`(0, -999999995)`: the case of zero seconds with nonzero nanos. -/
theorem duration_normalize_range_invariant_witness :
    (-9223372036854775808 ≤ (-1 : Int) ∧ (-1 : Int) < 9223372036854775808 ∧
     -2147483648 ≤ (5 : Int) ∧ (5 : Int) < 2147483648) ∧
    (-999999999 ≤ (Duration.mk (-1) 5).normalize.nanos ∧
     (Duration.mk (-1) 5).normalize.nanos ≤ 999999999 ∧
     ((Duration.mk (-1) 5).normalize.nanos.sign = 0 ∨
      (Duration.mk (-1) 5).normalize.nanos.sign = (Duration.mk (-1) 5).normalize.seconds.sign ∨
      (Duration.mk (-1) 5).normalize.seconds = 0)) :=
  ⟨⟨by decide, by decide, by decide, by decide⟩,
   duration_normalize_range_invariant (-1) 5 (by decide) (by decide) (by decide) (by decide)⟩

/-- C2: For every input pair `(seconds : i64, nanos : i32)`, after
`Timestamp::normalize` (timestamp sign policy) the result satisfies
`0 ≤ nanos ≤ 999_999_999`, regardless of the sign of `seconds`. -/
theorem timestamp_normalize_range_invariant (s n : Int)
    (hs1 : -9223372036854775808 ≤ s) (hs2 : s < 9223372036854775808)
    (hn1 : -2147483648 ≤ n) (hn2 : n < 2147483648) :
    0 ≤ (Timestamp.mk s n).normalize.nanos ∧
    (Timestamp.mk s n).normalize.nanos ≤ 999999999 := by
  obtain ⟨-, -, h3, h4⟩ := timestamp_normalize_spec ⟨s, n⟩ hs1 hs2 hn1 hn2
  exact ⟨h3, h4⟩

/-- Witness for C2 at the input `(-7, -1)`, which has negative seconds
and normalizes to `(-8, 999999999)`. -/
theorem timestamp_normalize_range_invariant_witness :
    (-9223372036854775808 ≤ (-7 : Int) ∧ (-7 : Int) < 9223372036854775808 ∧
     -2147483648 ≤ (-1 : Int) ∧ (-1 : Int) < 2147483648) ∧
    (0 ≤ (Timestamp.mk (-7) (-1)).normalize.nanos ∧
     (Timestamp.mk (-7) (-1)).normalize.nanos ≤ 999999999) :=
  ⟨⟨by decide, by decide, by decide, by decide⟩,
   timestamp_normalize_range_invariant (-7) (-1) (by decide) (by decide) (by decide) (by decide)⟩

/-- C7: Normalization is idempotent under both sign policies: applying
`Duration::normalize` twice equals applying it once, and likewise for
`Timestamp::normalize`, for every `(i64, i32)` input pair. -/
theorem normalize_idempotent (s n : Int)
    (hs1 : -9223372036854775808 ≤ s) (hs2 : s < 9223372036854775808)
    (hn1 : -2147483648 ≤ n) (hn2 : n < 2147483648) :
    ((Duration.mk s n).normalize).normalize = (Duration.mk s n).normalize ∧
    ((Timestamp.mk s n).normalize).normalize = (Timestamp.mk s n).normalize := by
  obtain ⟨-, -, h3, h4, h5, h6⟩ := duration_normalize_spec ⟨s, n⟩ hs1 hs2 hn1 hn2
  obtain ⟨-, -, g3, g4⟩ := timestamp_normalize_spec ⟨s, n⟩ hs1 hs2 hn1 hn2
  exact ⟨duration_normalize_fixpoint _ h3 h4 h5 h6, timestamp_normalize_fixpoint _ g3 g4⟩

/-- Witness for C7 at the input `(1, 1500000000)` (the carry scenario). -/
theorem normalize_idempotent_witness :
    (-9223372036854775808 ≤ (1 : Int) ∧ (1 : Int) < 9223372036854775808 ∧
     -2147483648 ≤ (1500000000 : Int) ∧ (1500000000 : Int) < 2147483648) ∧
    (((Duration.mk 1 1500000000).normalize).normalize = (Duration.mk 1 1500000000).normalize ∧
     ((Timestamp.mk 1 1500000000).normalize).normalize = (Timestamp.mk 1 1500000000).normalize) :=
  ⟨⟨by decide, by decide, by decide, by decide⟩,
   normalize_idempotent 1 1500000000 (by decide) (by decide) (by decide) (by decide)⟩

/-- C10: Normalization preserves the represented value: for every input
pair with `i64::MIN + 3 ≤ seconds ≤ i64::MAX - 3` (so the carry and
borrow adjustments cannot overflow) and `nanos : i32`, the normalized
pair under either sign policy represents the same exact integer number
of nanoseconds. -/
theorem normalize_preserves_value (s n : Int)
    (hs1 : -9223372036854775805 ≤ s) (hs2 : s ≤ 9223372036854775804)
    (hn1 : -2147483648 ≤ n) (hn2 : n < 2147483648) :
    ((Duration.mk s n).normalize.seconds * 1000000000 + (Duration.mk s n).normalize.nanos
      = s * 1000000000 + n) ∧
    ((Timestamp.mk s n).normalize.seconds * 1000000000 + (Timestamp.mk s n).normalize.nanos
      = s * 1000000000 + n) := by
  obtain ⟨hdef, hb1, hb2, hp, hng⟩ := tmod_tdiv_ten9 n
  have hsgn : (0 ≤ n ∧ 0 ≤ n.tmod 1000000000) ∨ (n ≤ 0 ∧ n.tmod 1000000000 ≤ 0) := by
    rcases le_or_lt 0 n with h0 | h0
    · exact Or.inl ⟨h0, hp h0⟩
    · exact Or.inr ⟨by omega, hng (by omega)⟩
  clear hp hng
  rcases hsgn with ⟨hn0, hr0⟩ | ⟨hn0, hr0⟩ <;>
    constructor <;>
    · first
      | unfold Duration.normalize Duration.signFix Duration.rangeFold
          NANOS_PER_SECOND wrap64 wrap32
      | unfold Timestamp.normalize Timestamp.signFix Timestamp.rangeFold
          NANOS_PER_SECOND wrap64 wrap32
      split_ifs <;> simp_all <;> omega

/-- Witness for C10 at the input `(1, -500000000)` (the borrow
scenario). -/
theorem normalize_preserves_value_witness :
    (-9223372036854775805 ≤ (1 : Int) ∧ (1 : Int) ≤ 9223372036854775804 ∧
     -2147483648 ≤ (-500000000 : Int) ∧ (-500000000 : Int) < 2147483648) ∧
    (((Duration.mk 1 (-500000000)).normalize.seconds * 1000000000 +
        (Duration.mk 1 (-500000000)).normalize.nanos
      = 1 * 1000000000 + -500000000) ∧
     ((Timestamp.mk 1 (-500000000)).normalize.seconds * 1000000000 +
        (Timestamp.mk 1 (-500000000)).normalize.nanos
      = 1 * 1000000000 + -500000000)) :=
  ⟨⟨by decide, by decide, by decide, by decide⟩,
   normalize_preserves_value 1 (-500000000) (by decide) (by decide) (by decide) (by decide)⟩

/-- The host type `std::time::Duration`: an unsigned 64-bit whole-second
count plus a sub-second nanosecond count below one second. The Rust
invariant `nanos < 1_000_000_000` (and `secs < 2 ^ 64`) is carried as a
hypothesis where a theorem quantifies over host durations. -/
structure StdDuration where
  secs : Nat
  nanos : Nat
deriving DecidableEq

/-- `std::time::Duration::new(secs, nanos)`: carries surplus whole
seconds out of the nanosecond argument. (Rust panics if this carry
overflows `u64`; every call modelled here passes `nanos` below one
second, so the carry is zero and the panic is unreachable.) -/
def StdDuration.new (s n : Nat) : StdDuration :=
  ⟨s + n / 1000000000, n % 1000000000⟩

/-- Total nanosecond count represented by a host duration. -/
def StdDuration.toNanos (d : StdDuration) : Nat :=
  d.secs * 1000000000 + d.nanos

/-- The host type `std::time::SystemTime`, modelled as the POSIX
`timespec` representation Rust uses on Unix: a signed 64-bit whole-second
offset from the Unix epoch plus a non-negative sub-second nanosecond
count below one second (invariants carried as hypotheses). -/
structure SystemTime where
  secs : Int
  nanos : Nat
deriving DecidableEq

/-- `std::time::UNIX_EPOCH`. -/
def SystemTime.epoch : SystemTime := ⟨0, 0⟩

/-- `SystemTime::duration_since(UNIX_EPOCH)`: succeeds exactly when the
point does not precede the epoch. The source immediately `unwrap`s the
result, so the error payload is dropped and the fallible call is
modelled as an `Option`, `none` standing for the panic. -/
def SystemTime.durationSinceEpoch (t : SystemTime) : Option StdDuration :=
  if 0 ≤ t.secs then some ⟨t.secs.toNat, t.nanos⟩ else none

/-- Addition `SystemTime + std::time::Duration`. (Rust panics on `i64`
overflow of the second count; every call modelled here stays in range.) -/
def SystemTime.addDuration (t : SystemTime) (d : StdDuration) : SystemTime :=
  ⟨t.secs + (d.secs : Int) + ((t.nanos + d.nanos) / 1000000000 : Nat),
   (t.nanos + d.nanos) % 1000000000⟩

/-- The saturating field copy of `impl From<std::time::Duration> for
Duration`, before the trailing `normalize` call: clamp the whole-second
count to `i64::MAX` and the sub-second count to `i32::MAX`. -/
def Duration.fromStdRaw (d : StdDuration) : Duration :=
  ⟨if 9223372036854775807 < (d.secs : Int) then 9223372036854775807 else (d.secs : Int),
   if 2147483647 < (d.nanos : Int) then 2147483647 else (d.nanos : Int)⟩

/-- `impl From<std::time::Duration> for Duration`: saturating copy, then
`normalize`. -/
def Duration.fromStd (d : StdDuration) : Duration :=
  (Duration.fromStdRaw d).normalize

/-- `impl TryFrom<Duration> for std::time::Duration`: normalize first;
non-negative seconds succeed with `(seconds as u64, nanos as u32)`,
negative seconds fail carrying `((-seconds) as u64, (-nanos) as u32)`.
The negations are `i64`/`i32` operations, hence the wraps. -/
def Duration.tryToStd (d : Duration) : Except StdDuration StdDuration :=
  if 0 ≤ d.normalize.seconds then
    Except.ok (StdDuration.new (toU64 d.normalize.seconds) (toU32 d.normalize.nanos))
  else
    Except.error (StdDuration.new (toU64 (wrap64 (-d.normalize.seconds)))
      (toU32 (wrap32 (-d.normalize.nanos))))

/-- `impl From<std::time::SystemTime> for Timestamp`: compute the elapsed
duration since the epoch, convert it through `Duration::from`, and copy
the fields. -/
def Timestamp.fromSystemTime (t : SystemTime) : Option Timestamp :=
  t.durationSinceEpoch.map fun sd =>
    ⟨(Duration.fromStd sd).seconds, (Duration.fromStd sd).nanos⟩

/-- `impl TryFrom<Timestamp> for std::time::SystemTime`: normalize
first; non-negative seconds succeed with `UNIX_EPOCH + (seconds, nanos)`,
negative seconds fail carrying the `Duration { seconds: -seconds,
nanos }` value re-normalized under the symmetric policy. -/
def Timestamp.tryToSystemTime (ts : Timestamp) : Except StdDuration SystemTime :=
  if 0 ≤ ts.normalize.seconds then
    Except.ok (SystemTime.epoch.addDuration
      (StdDuration.new (toU64 ts.normalize.seconds) (toU32 ts.normalize.nanos)))
  else
    Except.error (StdDuration.new
      (toU64 ((Duration.mk (wrap64 (-ts.normalize.seconds)) ts.normalize.nanos).normalize.seconds))
      (toU32 ((Duration.mk (wrap64 (-ts.normalize.seconds)) ts.normalize.nanos).normalize.nanos)))

/-- On host durations whose second count fits `i64`, the saturating copy
is exact and the trailing `normalize` is the identity. -/
theorem Duration.fromStd_eq (s n : Nat)
    (hn : n < 1000000000) (hs : s ≤ 9223372036854775807) :
    Duration.fromStd ⟨s, n⟩ = ⟨(s : Int), (n : Int)⟩ := by
  unfold Duration.fromStd Duration.fromStdRaw
  simp only
  rw [if_neg (by omega), if_neg (by omega)]
  exact duration_normalize_fixpoint _ (by simp only; omega) (by simp only; omega)
    (by simp only; omega) (by simp only; omega)

/-- C8: For every host monotonic duration (any `u64` second count,
sub-second count below one second, out-of-range magnitudes included),
`Duration::from` never fails: the seconds field is the host second count
clamped to `i64::MAX`, the nanos field is the host sub-second count
clamped to `i32::MAX`, and the trailing `normalize` call leaves both
fields unchanged. -/
theorem duration_from_std_saturates (d : StdDuration)
    (hn : d.nanos < 1000000000) (hs : d.secs < 18446744073709551616) :
    Duration.fromStd d = Duration.fromStdRaw d ∧
    (Duration.fromStdRaw d).seconds = min (d.secs : Int) 9223372036854775807 ∧
    (Duration.fromStdRaw d).nanos = min (d.nanos : Int) 2147483647 := by
  obtain ⟨s, n⟩ := d
  simp only at hn hs
  have hraw : Duration.fromStdRaw ⟨s, n⟩ = ⟨min (s : Int) 9223372036854775807, (n : Int)⟩ := by
    unfold Duration.fromStdRaw
    simp only [Duration.mk.injEq]
    constructor
    · split_ifs <;> omega
    · rw [if_neg (by omega)]
  refine ⟨?_, ?_, ?_⟩
  · show Duration.fromStd ⟨s, n⟩ = Duration.fromStdRaw ⟨s, n⟩
    unfold Duration.fromStd
    rw [hraw]
    exact duration_normalize_fixpoint _ (by simp only; omega) (by simp only; omega)
      (by simp only; omega) (by simp only; omega)
  · rw [hraw]
  · rw [hraw]
    simp only
    omega

/-- Witness for C8 at the host duration of `u64::MAX` seconds and
`999_999_999` nanoseconds (an out-of-range magnitude that saturates). -/
theorem duration_from_std_saturates_witness :
    ((StdDuration.mk 18446744073709551615 999999999).nanos < 1000000000 ∧
     (StdDuration.mk 18446744073709551615 999999999).secs < 18446744073709551616) ∧
    (Duration.fromStd (StdDuration.mk 18446744073709551615 999999999) =
       Duration.fromStdRaw (StdDuration.mk 18446744073709551615 999999999) ∧
     (Duration.fromStdRaw (StdDuration.mk 18446744073709551615 999999999)).seconds =
       min ((StdDuration.mk 18446744073709551615 999999999).secs : Int) 9223372036854775807 ∧
     (Duration.fromStdRaw (StdDuration.mk 18446744073709551615 999999999)).nanos =
       min ((StdDuration.mk 18446744073709551615 999999999).nanos : Int) 2147483647) :=
  ⟨⟨by decide, by decide⟩,
   duration_from_std_saturates (StdDuration.mk 18446744073709551615 999999999)
     (by decide) (by decide)⟩

/-- C9: Converting the specific wire duration `{ seconds: -5, nanos:
-500_000_000 }` to a host duration fails, and the carried error is
exactly 5 seconds and 500_000_000 nanoseconds, i.e. 5.5 seconds. -/
theorem duration_neg_error_concrete :
    Duration.tryToStd ⟨-5, -500000000⟩ = Except.error (StdDuration.mk 5 500000000) ∧
    (StdDuration.mk 5 500000000).toNanos = 5500000000 := by
  decide

/-- C3 (code bug): the wire timestamp `{ seconds: -1, nanos: 500_000_000 }`
is already normalized with negative seconds and represents the point
`-500_000_000` nanoseconds relative to the epoch, i.e. it precedes the
epoch by 0.5 s; the conversion fails as claimed, but the carried error
is 1.5 s, not that exact magnitude. -/
theorem timestamp_pre_epoch_error_magnitude_bug :
    Timestamp.tryToSystemTime ⟨-1, 500000000⟩ = Except.error (StdDuration.mk 1 500000000) ∧
    (Timestamp.mk (-1) 500000000).normalize = ⟨-1, 500000000⟩ ∧
    (Timestamp.mk (-1) 500000000).normalize.seconds * 1000000000 +
      (Timestamp.mk (-1) 500000000).normalize.nanos = -500000000 ∧
    (StdDuration.mk 1 500000000).toNanos ≠ (500000000 : Nat) := by
  decide

/-- C4 counterexample: for the input `(-5, -500_000_000)` (already
normalized, seconds negative) the conversion fails, but the carried
error value, 5.5 s, is not the host duration built from the pair
`(-seconds, nanos)` of the normalized value — that pair is
`(5, -500_000_000)`, i.e. 4.5 s: the code negates the nanos field as
well. -/
theorem duration_neg_error_pair_counterexample :
    Duration.tryToStd ⟨-5, -500000000⟩ = Except.error (StdDuration.mk 5 500000000) ∧
    ¬(((StdDuration.mk 5 500000000).toNanos : Int) =
       -(Duration.mk (-5) (-500000000)).normalize.seconds * 1000000000 +
        (Duration.mk (-5) (-500000000)).normalize.nanos) := by
  decide

/-- C4 amended: for every `(i64, i32)` input whose symmetric
normalization has negative seconds, the conversion to the host duration
fails, and the carried error value is the host duration built from the
pair `(-seconds, -nanos)` of the normalized value. -/
theorem duration_neg_error_magnitude (s n : Int)
    (hs1 : -9223372036854775808 ≤ s) (hs2 : s < 9223372036854775808)
    (hn1 : -2147483648 ≤ n) (hn2 : n < 2147483648)
    (hneg : (Duration.mk s n).normalize.seconds < 0) :
    Duration.tryToStd ⟨s, n⟩ =
      Except.error ⟨(-(Duration.mk s n).normalize.seconds).toNat,
                    (-(Duration.mk s n).normalize.nanos).toNat⟩ := by
  obtain ⟨k1, -, k3, -, k5, -⟩ := duration_normalize_spec ⟨s, n⟩ hs1 hs2 hn1 hn2
  unfold Duration.tryToStd
  rw [if_neg (by omega)]
  unfold StdDuration.new toU64 toU32 wrap64 wrap32
  simp only [Except.error.injEq, StdDuration.mk.injEq]
  constructor <;> omega

/-- Witness for the amended C4 at the input `(-5, -500_000_000)`. -/
theorem duration_neg_error_magnitude_witness :
    (-9223372036854775808 ≤ (-5 : Int) ∧ (-5 : Int) < 9223372036854775808 ∧
     -2147483648 ≤ (-500000000 : Int) ∧ (-500000000 : Int) < 2147483648 ∧
     (Duration.mk (-5) (-500000000)).normalize.seconds < 0) ∧
    Duration.tryToStd ⟨-5, -500000000⟩ =
      Except.error ⟨(-(Duration.mk (-5) (-500000000)).normalize.seconds).toNat,
                    (-(Duration.mk (-5) (-500000000)).normalize.nanos).toNat⟩ :=
  ⟨⟨by decide, by decide, by decide, by decide, by decide⟩,
   duration_neg_error_magnitude (-5) (-500000000)
     (by decide) (by decide) (by decide) (by decide) (by decide)⟩

/-- C5 counterexample: the host duration of `u64::MAX` whole seconds is
a valid non-negative host duration, but it round-trips to `i64::MAX`
whole seconds — the saturating host-to-wire conversion loses the
out-of-range magnitude, so the round trip is not exact on all of the
non-negative domain. -/
theorem duration_roundtrip_counterexample :
    Duration.tryToStd (Duration.fromStd ⟨18446744073709551615, 0⟩) =
      Except.ok (StdDuration.mk 9223372036854775807 0) ∧
    StdDuration.mk 9223372036854775807 0 ≠ StdDuration.mk 18446744073709551615 0 := by
  decide

/-- C5 amended: for every host duration whose whole-second count is at
most `i64::MAX` (the sub-second count is below one second by the host
invariant), converting to wire form and back succeeds and yields exactly
the input, with no precision loss. -/
theorem duration_roundtrip (d : StdDuration)
    (hn : d.nanos < 1000000000) (hs : d.secs ≤ 9223372036854775807) :
    Duration.tryToStd (Duration.fromStd d) = Except.ok d := by
  obtain ⟨s, n⟩ := d
  simp only at hn hs
  rw [Duration.fromStd_eq s n hn hs]
  have hnorm : (Duration.mk (s : Int) (n : Int)).normalize = ⟨(s : Int), (n : Int)⟩ :=
    duration_normalize_fixpoint _ (by simp only; omega) (by simp only; omega)
      (by simp only; omega) (by simp only; omega)
  unfold Duration.tryToStd
  rw [hnorm]
  rw [if_pos (by simp only; omega)]
  unfold StdDuration.new toU64 toU32
  simp only [Except.ok.injEq, StdDuration.mk.injEq]
  constructor <;> omega

/-- Witness for the amended C5 at the host duration `(2, 300)`. -/
theorem duration_roundtrip_witness :
    ((StdDuration.mk 2 300).nanos < 1000000000 ∧
     (StdDuration.mk 2 300).secs ≤ 9223372036854775807) ∧
    Duration.tryToStd (Duration.fromStd (StdDuration.mk 2 300)) =
      Except.ok (StdDuration.mk 2 300) :=
  ⟨⟨by decide, by decide⟩, duration_roundtrip ⟨2, 300⟩ (by decide) (by decide)⟩

/-- C6: For every host time point at or after the epoch (host invariant:
`timespec` seconds in `i64`, sub-second nanoseconds below one second),
converting to a wire timestamp and then back succeeds and yields exactly
the input point. -/
theorem timestamp_roundtrip (t : SystemTime)
    (hn : t.nanos < 1000000000) (hs : t.secs < 9223372036854775808)
    (h0 : 0 ≤ t.secs) :
    Option.map Timestamp.tryToSystemTime (Timestamp.fromSystemTime t) =
      some (Except.ok t) := by
  obtain ⟨s, n⟩ := t
  simp only at hn hs h0
  have hd : SystemTime.durationSinceEpoch ⟨s, n⟩ = some ⟨s.toNat, n⟩ := by
    unfold SystemTime.durationSinceEpoch
    simp only
    rw [if_pos h0]
  have hf : Duration.fromStd ⟨s.toNat, n⟩ = ⟨(s.toNat : Int), (n : Int)⟩ :=
    Duration.fromStd_eq s.toNat n hn (by omega)
  have h1 : Timestamp.fromSystemTime ⟨s, n⟩ = some ⟨(s.toNat : Int), (n : Int)⟩ := by
    unfold Timestamp.fromSystemTime
    rw [hd, Option.map_some', hf]
  rw [h1, Option.map_some']
  have hnorm : (Timestamp.mk (s.toNat : Int) (n : Int)).normalize =
      ⟨(s.toNat : Int), (n : Int)⟩ :=
    timestamp_normalize_fixpoint _ (by simp only; omega) (by simp only; omega)
  unfold Timestamp.tryToSystemTime
  rw [hnorm]
  rw [if_pos (by simp only; omega)]
  unfold SystemTime.epoch SystemTime.addDuration StdDuration.new toU64 toU32
  simp only [Option.some.injEq, Except.ok.injEq, SystemTime.mk.injEq]
  constructor <;> omega

/-- Witness for C6 at the host time point `(1404810611, 12)`. -/
theorem timestamp_roundtrip_witness :
    ((SystemTime.mk 1404810611 12).nanos < 1000000000 ∧
     (SystemTime.mk 1404810611 12).secs < 9223372036854775808 ∧
     0 ≤ (SystemTime.mk 1404810611 12).secs) ∧
    Option.map Timestamp.tryToSystemTime
        (Timestamp.fromSystemTime (SystemTime.mk 1404810611 12)) =
      some (Except.ok (SystemTime.mk 1404810611 12)) :=
  ⟨⟨by decide, by decide, by decide⟩,
   timestamp_roundtrip ⟨1404810611, 12⟩ (by decide) (by decide) (by decide)⟩
